import Mathlib

set_option maxRecDepth 100000

/-!
Shallow embedding of the `gigatar/ratelimiter` Go package.

Time instants and durations are rationals measured in seconds
(Go stores nanoseconds in an int64; every duration in this code is a
whole number of seconds, so seconds as ℚ lose nothing).  The token
bucket itself lives in the external package `golang.org/x/time/rate`
whose source is not part of this repository; it is modelled from the
spec.  Everything else is translated from `src/unnamed/part_000`
(the instance-based implementation described by the README) and from
the legacy global-state variant `src/rate-limit.go`.
-/

namespace Ratelimiter

/-- A point in time, in seconds. -/
abbrev Time := ℚ

/-- `time.Second`, in seconds. -/
def second : ℚ := 1

/-- `time.Minute`, in seconds. -/
def minute : ℚ := 60

/-- `Config` from the source: rate limiter configuration.
`RequestsPerSecond` is a float64 (modelled as ℚ), `Burst` an int,
the two durations are `time.Duration` (modelled in seconds). -/
structure Config where
  RequestsPerSecond : ℚ
  Burst : ℤ
  CleanupInterval : ℚ
  MaxIdleTime : ℚ
deriving Repr, DecidableEq

/-- `DefaultConfig` from the source. -/
def DefaultConfig : Config :=
  { RequestsPerSecond := 1
    Burst := 5
    CleanupInterval := minute
    MaxIdleTime := 3 * minute }

/-- `Config.Validate` from the source: each invalid field is
overwritten with its default, in order. -/
def Config.Validate (c : Config) : Config :=
  let c := if c.RequestsPerSecond ≤ 0 then { c with RequestsPerSecond := 1 } else c
  let c := if c.Burst ≤ 0 then { c with Burst := 5 } else c
  let c := if c.CleanupInterval < second then { c with CleanupInterval := minute } else c
  if c.MaxIdleTime < second then { c with MaxIdleTime := 3 * minute } else c

/-- Modelled from the spec: the token bucket of `golang.org/x/time/rate`,
whose source is not in this repository.  Per the spec (§3, §4.1): `rate`
tokens per second, `capacity` the burst cap, `tokens` the current fill,
`lastRefill` the time of the last refill computation. -/
structure TokenBucket where
  rate : ℚ
  capacity : ℚ
  tokens : ℚ
  lastRefill : Time
deriving Repr, DecidableEq

/-- Modelled from the spec: `rate.NewLimiter(r, b)` as observed through
`Allow` — a fresh bucket holds `tokens = capacity = b` (spec §3:
"tokens initialized to capacity"). -/
def NewLimiter (r : ℚ) (b : ℤ) (now : Time) : TokenBucket :=
  { rate := r, capacity := (b : ℚ), tokens := (b : ℚ), lastRefill := now }

/-- Modelled from the spec (§4.1 step 2): the token count after adding
`elapsed * rate` tokens, capped at `capacity`.  The cap is the
right-hand form of `min tb.capacity uncapped` (`min_def`), spelled as an
`if` so that it evaluates by kernel reduction. -/
def TokenBucket.refilledTokens (tb : TokenBucket) (now : Time) : ℚ :=
  let uncapped := tb.tokens + (now - tb.lastRefill) * tb.rate
  if tb.capacity ≤ uncapped then tb.capacity else uncapped

/-- Modelled from the spec (§4.1 TryConsume, the behaviour of
`limiter.Allow()`): refill, stamp `lastRefill := now`, then consume one
token when at least one is available. -/
def TokenBucket.tryConsume (tb : TokenBucket) (now : Time) : Bool × TokenBucket :=
  let refilled := tb.refilledTokens now
  if 1 ≤ refilled then
    (true, { tb with tokens := refilled - 1, lastRefill := now })
  else
    (false, { tb with tokens := refilled, lastRefill := now })

/-- `visitor` from the source: a per-key bucket plus last-access stamp. -/
structure Visitor where
  limiter : TokenBucket
  lastSeen : Time
deriving Repr, DecidableEq

/-- The `visitors` map, keyed by client IP string. -/
abbrev Visitors := String → Option Visitor

/-- `RateLimiter` from the source (the mutex is concurrency plumbing and
has no sequential content). -/
structure RateLimiter where
  config : Config
  visitors : Visitors

/-- `New` from the source: substitute `DefaultConfig()` for nil, run
`Validate` on the supplied value, start with an empty map.  (The mutated
caller-visible config cell is modelled separately by `NewH`.) -/
def New (cfg : Option Config) : RateLimiter :=
  let c := (match cfg with
    | none => DefaultConfig
    | some c => c)
  { config := c.Validate, visitors := fun _ => none }

/-- `getVisitor` from the source: return the existing bucket after
stamping `lastSeen`, or create and insert a fresh one. -/
def RateLimiter.getVisitor (rl : RateLimiter) (ip : String) (now : Time) :
    TokenBucket × RateLimiter :=
  match rl.visitors ip with
  | none =>
      let limiter := NewLimiter rl.config.RequestsPerSecond rl.config.Burst now
      (limiter,
       { rl with visitors := fun k =>
           if k = ip then some { limiter := limiter, lastSeen := now } else rl.visitors k })
  | some v =>
      (v.limiter,
       { rl with visitors := fun k =>
           if k = ip then some { v with lastSeen := now } else rl.visitors k })

/-- The admission path of `Middleware`: `getVisitor` followed by
`limiter.Allow()`.  The bucket is shared by pointer in Go, so the
consume result is written back into the entry for `ip`. -/
def RateLimiter.check (rl : RateLimiter) (ip : String) (now : Time) :
    Bool × RateLimiter :=
  let gv := rl.getVisitor ip now
  let res := gv.1.tryConsume now
  (res.1,
   { gv.2 with visitors := fun k =>
       if k = ip then some { limiter := res.2, lastSeen := now } else gv.2.visitors k })

/-- A sequence of admission checks on one key, returning the verdicts. -/
def RateLimiter.runChecks : RateLimiter → String → List Time → List Bool × RateLimiter
  | rl, _, [] => ([], rl)
  | rl, ip, t :: ts =>
      let r := rl.check ip t
      let rest := r.2.runChecks ip ts
      (r.1 :: rest.1, rest.2)

/-- A sequence of consume attempts on a single bucket. -/
def TokenBucket.runConsume : TokenBucket → List Time → List Bool × TokenBucket
  | tb, [] => ([], tb)
  | tb, t :: ts =>
      let r := tb.tryConsume t
      let rest := r.2.runConsume ts
      (r.1 :: rest.1, rest.2)

/-- One pass of the loop body of `cleanupVisitors` in part_000: delete
every entry with `time.Since(v.lastSeen) >= MaxIdleTime`. -/
def cleanupVisitorsPass (maxIdle : ℚ) (now : Time) (vs : Visitors) : Visitors :=
  fun k =>
    match vs k with
    | some v => if now - v.lastSeen ≥ maxIdle then none else some v
    | none => none

/-- One sweep applied to a `RateLimiter`. -/
def RateLimiter.cleanupOnce (rl : RateLimiter) (now : Time) : RateLimiter :=
  { rl with visitors := cleanupVisitorsPass rl.config.MaxIdleTime now rl.visitors }

/-- The `for range ticker.C` loop of `cleanupVisitors`: the map after
`n` ticks, the clock reading `ticks i` at the i-th tick.  The loop has
no exit branch, so every tick performs another pass. -/
def cleanupVisitorsRun (maxIdle : ℚ) (ticks : Nat → Time) : Nat → Visitors → Visitors
  | 0, vs => vs
  | n + 1, vs => cleanupVisitorsPass maxIdle (ticks (n + 1)) (cleanupVisitorsRun maxIdle ticks n vs)

/-- The operations declared by the two source files (methods of
`RateLimiter` and package-level functions).  No other operation exists. -/
def exposedOperations : List String :=
  ["DefaultConfig", "Config.Validate", "New", "RateLimiter.getVisitor",
   "RateLimiter.cleanupVisitors", "RateLimiter.Middleware", "Initialize",
   "RateLimitMiddleware", "getClientIP"]

namespace Legacy

/-- One pass of the loop body of `cleanupVisitors` in `rate-limit.go`:
delete every entry with `time.Since(v.lastSeen) > config.MaxIdleTime`
(strict, unlike part_000). -/
def cleanupVisitorsPass (maxIdle : ℚ) (now : Time) (vs : Visitors) : Visitors :=
  fun k =>
    match vs k with
    | some v => if now - v.lastSeen > maxIdle then none else some v
    | none => none

/-- `getVisitor` from `rate-limit.go`, acting on the package-level map. -/
def getVisitor (cfg : Config) (vs : Visitors) (ip : String) (now : Time) :
    TokenBucket × Visitors :=
  match vs ip with
  | none =>
      let limiter := NewLimiter cfg.RequestsPerSecond cfg.Burst now
      (limiter,
       fun k => if k = ip then some { limiter := limiter, lastSeen := now } else vs k)
  | some v =>
      (v.limiter,
       fun k => if k = ip then some { v with lastSeen := now } else vs k)

end Legacy

/-- An HTTP request, reduced to the three signals `getClientIP` reads.
`Header.Get` yields the empty string when a header is absent, so the
two headers are plain strings. -/
structure Request where
  xForwardedFor : String
  xRealIP : String
  remoteAddr : String
deriving Repr, DecidableEq

/-- `getClientIP` from the source, parameterised by `net.SplitHostPort`
(Go standard library, not in this repository): `split a = some (h, p)`
models a successful split, `none` an error. -/
def getClientIP (split : String → Option (String × String)) (r : Request) : String :=
  if r.xForwardedFor ≠ "" then
    ((r.xForwardedFor.splitOn ",").headD "").trim
  else if r.xRealIP ≠ "" then
    r.xRealIP
  else
    match split r.remoteAddr with
    | some hp => hp.1
    | none => r.remoteAddr

/-- The key extraction of `RateLimitMiddleware` in `rate-limit.go`:
`ip := r.RemoteAddr`, unconditionally — the forwarding headers are
ignored and the host part is never split off. -/
def Legacy.clientKey (r : Request) : String := r.remoteAddr

/-! Heap model for the caller-visible mutation of `Config` by
`Validate`.  Go passes `*Config`; a heap is a list of `Config` cells and
a pointer an index into it. -/

/-- A heap of `Config` cells. -/
abbrev Heap := List Config

/-- Dereference a `*Config`. -/
def heapRead (h : Heap) (p : Nat) : Config := h.getD p DefaultConfig

/-- Assign through a `*Config`. -/
def heapWrite (h : Heap) (p : Nat) (c : Config) : Heap := h.set p c

/-- A `RateLimiter` as it sits in memory: it retains the caller's
`*Config` rather than a copy. -/
structure RateLimiterH where
  configPtr : Nat
  visitors : Visitors

/-- `New(cfg)` on the heap model: nil allocates a fresh default cell;
otherwise `cfg.Validate()` mutates the caller's cell in place and the
limiter keeps that same pointer. -/
def NewH (h : Heap) (cfg : Option Nat) : Heap × RateLimiterH :=
  match cfg with
  | none =>
      (heapWrite (h ++ [DefaultConfig]) h.length (DefaultConfig.Validate),
       { configPtr := h.length, visitors := fun _ => none })
  | some p =>
      (heapWrite h p ((heapRead h p).Validate),
       { configPtr := p, visitors := fun _ => none })

/-- `Initialize(cfg)` from part_000: `globalLimiter = New(cfg)`. -/
def InitializeH (h : Heap) (cfg : Option Nat) : Heap × RateLimiterH := NewH h cfg

/-- The spec's bucket invariant (§3): `0 ≤ tokens ≤ capacity`. -/
def TokenBucket.Inv (tb : TokenBucket) : Prop :=
  0 ≤ tb.tokens ∧ tb.tokens ≤ tb.capacity

/-- Test scenario: a configuration that is invalid in every field. -/
def zeroConfig : Config :=
  { RequestsPerSecond := 0, Burst := 0, CleanupInterval := 0, MaxIdleTime := 0 }

/-- Test scenario: a visitor whose bucket is exhausted, last seen at time 0. -/
def vIdle : Visitor :=
  { limiter := { rate := 1, capacity := 5, tokens := 0, lastRefill := 0 }, lastSeen := 0 }

/-- Test scenario: a map holding `vIdle` under every key. -/
def vsIdle : Visitors := fun _ => some vIdle

/-- Test scenario: a default limiter whose burst for key "a" has been
exhausted by five admission checks at time 0. -/
def exhaustedRL : RateLimiter := ((New none).runChecks "a" [0, 0, 0, 0, 0]).2

/-! Helper lemmas about the bucket primitive. -/

theorem tryConsume_rate (tb : TokenBucket) (now : Time) :
    ((tb.tryConsume now).2).rate = tb.rate := by
  simp only [TokenBucket.tryConsume]
  split <;> rfl

theorem tryConsume_capacity (tb : TokenBucket) (now : Time) :
    ((tb.tryConsume now).2).capacity = tb.capacity := by
  simp only [TokenBucket.tryConsume]
  split <;> rfl

theorem tryConsume_lastRefill (tb : TokenBucket) (now : Time) :
    ((tb.tryConsume now).2).lastRefill = now := by
  simp only [TokenBucket.tryConsume]
  split <;> rfl

theorem tryConsume_true_tokens (tb : TokenBucket) (now : Time)
    (h : (tb.tryConsume now).1 = true) :
    ((tb.tryConsume now).2).tokens = tb.refilledTokens now - 1 := by
  revert h
  simp only [TokenBucket.tryConsume]
  split <;> simp

theorem tryConsume_false_tokens (tb : TokenBucket) (now : Time)
    (h : (tb.tryConsume now).1 = false) :
    ((tb.tryConsume now).2).tokens = tb.refilledTokens now := by
  revert h
  simp only [TokenBucket.tryConsume]
  split <;> simp

theorem refilledTokens_le_capacity (tb : TokenBucket) (now : Time) :
    tb.refilledTokens now ≤ tb.capacity := by
  simp only [TokenBucket.refilledTokens]
  split
  · exact le_refl _
  · exact le_of_not_le (by assumption)

theorem refilledTokens_nonneg (tb : TokenBucket) (now : Time)
    (hr : 0 ≤ tb.rate) (h0 : 0 ≤ tb.tokens) (hc : tb.tokens ≤ tb.capacity)
    (ht : tb.lastRefill ≤ now) :
    0 ≤ tb.refilledTokens now := by
  simp only [TokenBucket.refilledTokens]
  split
  · exact le_trans h0 hc
  · have : 0 ≤ (now - tb.lastRefill) * tb.rate := mul_nonneg (by linarith) hr
    linarith

theorem tryConsume_inv (tb : TokenBucket) (now : Time)
    (hr : 0 ≤ tb.rate) (hinv : tb.Inv) (ht : tb.lastRefill ≤ now) :
    ((tb.tryConsume now).2).Inv := by
  have hle := refilledTokens_le_capacity tb now
  have hge := refilledTokens_nonneg tb now hr hinv.1 hinv.2 ht
  simp only [TokenBucket.tryConsume, TokenBucket.Inv]
  split
  · constructor <;> simp <;> linarith
  · exact ⟨hge, hle⟩

theorem runConsume_inv : ∀ (ts : List Time) (tb : TokenBucket),
    0 ≤ tb.rate → tb.Inv → List.Chain (· ≤ ·) tb.lastRefill ts →
    ((tb.runConsume ts).2).Inv
  | [], tb, _, hinv, _ => by simpa [TokenBucket.runConsume] using hinv
  | t :: ts, tb, hr, hinv, hchain => by
    rcases List.chain_cons.mp hchain with ⟨h1, h2⟩
    have step := tryConsume_inv tb t hr hinv h1
    have tail := runConsume_inv ts (tb.tryConsume t).2
      (by rw [tryConsume_rate]; exact hr) step
      (by rw [tryConsume_lastRefill]; exact h2)
    simpa [TokenBucket.runConsume] using tail

/-! Helper lemmas about the registry. -/

theorem getVisitor_fresh (rl : RateLimiter) (ip : String) (now : Time)
    (h : rl.visitors ip = none) :
    (rl.getVisitor ip now).1 = NewLimiter rl.config.RequestsPerSecond rl.config.Burst now := by
  simp only [RateLimiter.getVisitor, h]

theorem getVisitor_frame (rl : RateLimiter) (ip : String) (now : Time)
    (k : String) (hk : k ≠ ip) :
    ((rl.getVisitor ip now).2).visitors k = rl.visitors k := by
  unfold RateLimiter.getVisitor
  cases hv : rl.visitors ip <;> simp [hv, hk]

theorem check_frame (rl : RateLimiter) (ip : String) (now : Time)
    (k : String) (hk : k ≠ ip) :
    ((rl.check ip now).2).visitors k = rl.visitors k := by
  unfold RateLimiter.check
  dsimp only
  rw [if_neg hk]
  exact getVisitor_frame rl ip now k hk

theorem check_config (rl : RateLimiter) (ip : String) (now : Time) :
    ((rl.check ip now).2).config = rl.config := by
  unfold RateLimiter.check RateLimiter.getVisitor
  cases hv : rl.visitors ip <;> simp [hv]

theorem check_preserves_some (rl : RateLimiter) (ip : String) (now : Time)
    (k : String) (v : Visitor) (h : rl.visitors k = some v) :
    ∃ w, ((rl.check ip now).2).visitors k = some w := by
  by_cases hk : k = ip
  · subst hk
    unfold RateLimiter.check
    dsimp only
    rw [if_pos rfl]
    exact ⟨_, rfl⟩
  · rw [check_frame rl ip now k hk]
    exact ⟨v, h⟩

theorem Validate_rps (cfg : Config) :
    (cfg.Validate).RequestsPerSecond =
      if cfg.RequestsPerSecond ≤ 0 then 1 else cfg.RequestsPerSecond := by
  unfold Config.Validate
  dsimp only
  split_ifs <;> rfl

theorem Validate_burst (cfg : Config) :
    (cfg.Validate).Burst = if cfg.Burst ≤ 0 then 5 else cfg.Burst := by
  unfold Config.Validate
  dsimp only
  split_ifs <;> rfl

theorem Validate_cleanup (cfg : Config) :
    (cfg.Validate).CleanupInterval =
      if cfg.CleanupInterval < second then minute else cfg.CleanupInterval := by
  unfold Config.Validate
  dsimp only
  split_ifs <;> rfl

theorem Validate_maxidle (cfg : Config) :
    (cfg.Validate).MaxIdleTime =
      if cfg.MaxIdleTime < second then 3 * minute else cfg.MaxIdleTime := by
  unfold Config.Validate
  dsimp only
  split_ifs <;> rfl

theorem getVisitor_existing (rl : RateLimiter) (ip : String) (now : Time)
    (v : Visitor) (h : rl.visitors ip = some v) :
    (rl.getVisitor ip now).1 = v.limiter := by
  simp only [RateLimiter.getVisitor, h]

theorem check_verdict (rl : RateLimiter) (ip : String) (now : Time) :
    (rl.check ip now).1 = ((rl.getVisitor ip now).1.tryConsume now).1 := rfl

theorem check_self_visitor (rl : RateLimiter) (ip : String) (now : Time) :
    ((rl.check ip now).2).visitors ip =
      some { limiter := ((rl.getVisitor ip now).1.tryConsume now).2, lastSeen := now } := by
  unfold RateLimiter.check
  dsimp only
  rw [if_pos rfl]

theorem check_fresh_true (rl : RateLimiter) (ip : String) (now : Time)
    (h : rl.visitors ip = none) (hb : 1 ≤ rl.config.Burst) :
    (rl.check ip now).1 = true := by
  have hcast : (1 : ℚ) ≤ (rl.config.Burst : ℚ) := by exact_mod_cast hb
  simp only [RateLimiter.check, RateLimiter.getVisitor, h]
  simp only [NewLimiter, TokenBucket.tryConsume, TokenBucket.refilledTokens]
  simp [hcast]

/-! Claim theorems. -/

/-- C1: a freshly created bucket starts with tokens equal to capacity
(the configured burst), and with `Burst = 5` the first five admission
checks on a fresh key at zero elapsed time all return true while the
sixth returns false. -/
theorem fresh_bucket_full_admission :
    (∀ (rl : RateLimiter) (ip : String) (now : Time), rl.visitors ip = none →
       ((rl.getVisitor ip now).1).tokens = (rl.config.Burst : ℚ) ∧
       ((rl.getVisitor ip now).1).capacity = (rl.config.Burst : ℚ)) ∧
    ((New none).runChecks "a" [0, 0, 0, 0, 0, 0]).1 =
      [true, true, true, true, true, false] := by
  constructor
  · intro rl ip now h
    rw [getVisitor_fresh rl ip now h]
    exact ⟨rfl, rfl⟩
  · with_unfolding_all decide

/-- Witness for C1 at the default limiter and key "a". -/
theorem fresh_bucket_full_admission_witness :
    ((New none).getVisitor "a" 0).1.tokens = (((New none).config.Burst : ℤ) : ℚ) :=
  (fresh_bucket_full_admission.1 (New none) "a" 0 rfl).1

/-- C2: over any admission sequence the token count stays within
`[0, capacity]`; a successful check takes exactly one token from the
refilled amount, a rejecting check leaves the refilled amount unchanged,
and the refill itself never exceeds capacity. -/
theorem tokens_within_bounds :
    ∀ (tb : TokenBucket) (now : Time) (ts : List Time),
      0 ≤ tb.rate → tb.Inv →
      (((tb.tryConsume now).1 = true →
          ((tb.tryConsume now).2).tokens = tb.refilledTokens now - 1) ∧
       ((tb.tryConsume now).1 = false →
          ((tb.tryConsume now).2).tokens = tb.refilledTokens now) ∧
       tb.refilledTokens now ≤ tb.capacity ∧
       (tb.lastRefill ≤ now → ((tb.tryConsume now).2).Inv)) ∧
      (List.Chain (· ≤ ·) tb.lastRefill ts → ((tb.runConsume ts).2).Inv) := by
  intro tb now ts hr hinv
  exact ⟨⟨tryConsume_true_tokens tb now, tryConsume_false_tokens tb now,
          refilledTokens_le_capacity tb now,
          fun ht => tryConsume_inv tb now hr hinv ht⟩,
         fun hch => runConsume_inv ts tb hr hinv hch⟩

/-- Witness for C2: six consume attempts at time 0 on a full default
bucket leave the invariant intact. -/
theorem tokens_within_bounds_witness :
    ((⟨1, 5, 5, 0⟩ : TokenBucket).runConsume [0, 0, 0, 0, 0, 0]).2.Inv :=
  (tokens_within_bounds ⟨1, 5, 5, 0⟩ 0 [0, 0, 0, 0, 0, 0]
      (by with_unfolding_all decide)
      ⟨by with_unfolding_all decide, by with_unfolding_all decide⟩).2
    (by simp [List.chain_cons])

/-- C3: with rate 1/s and capacity 5, once the bucket for "a" is
exhausted, a check after waiting `d ≥ 1` seconds admits; a second check
at the same instant rejects again while fewer than one token remains
(`d < 2`); and every call, admitted or rejected, advances `lastRefill`
to now, so elapsed time is never double-counted or lost. -/
theorem refill_after_exhaustion :
    ∀ d : ℚ, 1 ≤ d →
      ((exhaustedRL.check "a" d).1 = true ∧
       (d < 2 → (((exhaustedRL.check "a" d).2).check "a" d).1 = false)) ∧
      (∀ (tb : TokenBucket) (now : Time), ((tb.tryConsume now).2).lastRefill = now) := by
  intro d hd
  have hv : exhaustedRL.visitors "a" =
      some { limiter := { rate := 1, capacity := 5, tokens := 0, lastRefill := 0 },
             lastSeen := 0 } := by
    with_unfolding_all decide
  refine ⟨⟨?_, ?_⟩, fun tb now => tryConsume_lastRefill tb now⟩
  · rw [check_verdict, getVisitor_existing _ _ _ _ hv]
    simp only [TokenBucket.tryConsume, TokenBucket.refilledTokens]
    have e : (0 : ℚ) + (d - 0) * 1 = d := by ring
    rw [e]
    split_ifs <;> simp_all
  · intro hd2
    have h5 : ¬ ((5 : ℚ) ≤ 0 + (d - 0) * 1) := by
      have e : (0 : ℚ) + (d - 0) * 1 = d := by ring
      rw [e]; linarith
    have htb : (({ rate := 1, capacity := 5, tokens := 0, lastRefill := 0 } :
        TokenBucket).tryConsume d).2 =
        { rate := 1, capacity := 5, tokens := 0 + (d - 0) * 1 - 1, lastRefill := d } := by
      have h1' : (1 : ℚ) ≤ 0 + (d - 0) * 1 := by
        have e : (0 : ℚ) + (d - 0) * 1 = d := by ring
        rw [e]; exact hd
      simp only [TokenBucket.tryConsume, TokenBucket.refilledTokens]
      rw [if_neg h5, if_pos h1']
    have hv2 : ((exhaustedRL.check "a" d).2).visitors "a" =
        some { limiter := { rate := 1, capacity := 5, tokens := 0 + (d - 0) * 1 - 1,
                            lastRefill := d },
               lastSeen := d } := by
      rw [check_self_visitor, getVisitor_existing _ _ _ _ hv, htb]
    rw [check_verdict, getVisitor_existing _ _ _ _ hv2]
    simp only [TokenBucket.tryConsume, TokenBucket.refilledTokens]
    have e2 : (0 : ℚ) + (d - 0) * 1 - 1 + (d - d) * 1 = d - 1 := by ring
    rw [e2]
    have h5' : ¬ ((5 : ℚ) ≤ d - 1) := by linarith
    rw [if_neg h5']
    rw [if_neg (by linarith : ¬ ((1 : ℚ) ≤ d - 1))]

/-- Witness for C3 at d = 1: one admit, then an immediate reject. -/
theorem refill_after_exhaustion_witness :
    (exhaustedRL.check "a" 1).1 = true ∧
      (((exhaustedRL.check "a" 1).2).check "a" 1).1 = false :=
  ⟨(refill_after_exhaustion 1 (by with_unfolding_all decide)).1.1,
   (refill_after_exhaustion 1 (by with_unfolding_all decide)).1.2
     (by with_unfolding_all decide)⟩

/-- C4: `New` never fails.  Every validated field is positive (at least
one time-unit for the intervals); an invalid field is normalized to its
default (rate 1, burst 5, cleanup 60s, idle 180s) while a valid field is
kept; a fully invalid config normalizes to exactly `DefaultConfig`; nil
behaves as the explicit default config; and the resulting limiter is
never always-reject — a fresh key's first check admits. -/
theorem new_never_fails :
    ∀ cfg : Config,
      (0 < (cfg.Validate).RequestsPerSecond ∧ 0 < (cfg.Validate).Burst ∧
       second ≤ (cfg.Validate).CleanupInterval ∧ second ≤ (cfg.Validate).MaxIdleTime) ∧
      ((cfg.Validate).RequestsPerSecond =
        if cfg.RequestsPerSecond ≤ 0 then 1 else cfg.RequestsPerSecond) ∧
      ((cfg.Validate).Burst = if cfg.Burst ≤ 0 then 5 else cfg.Burst) ∧
      ((cfg.Validate).CleanupInterval =
        if cfg.CleanupInterval < second then minute else cfg.CleanupInterval) ∧
      ((cfg.Validate).MaxIdleTime =
        if cfg.MaxIdleTime < second then 3 * minute else cfg.MaxIdleTime) ∧
      ((cfg.RequestsPerSecond ≤ 0 ∧ cfg.Burst ≤ 0 ∧
        cfg.CleanupInterval < second ∧ cfg.MaxIdleTime < second) →
        cfg.Validate = DefaultConfig) ∧
      (New (some cfg)).config = cfg.Validate ∧
      New none = New (some DefaultConfig) ∧
      (∀ (ip : String) (now : Time), ((New (some cfg)).check ip now).1 = true) := by
  intro cfg
  have hrps := Validate_rps cfg
  have hb := Validate_burst cfg
  have hci := Validate_cleanup cfg
  have hmi := Validate_maxidle cfg
  have hpos : 0 < (cfg.Validate).RequestsPerSecond ∧ 0 < (cfg.Validate).Burst ∧
      second ≤ (cfg.Validate).CleanupInterval ∧ second ≤ (cfg.Validate).MaxIdleTime := by
    refine ⟨?_, ?_, ?_, ?_⟩
    · rw [hrps]; split_ifs with h
      · norm_num
      · linarith
    · rw [hb]; split_ifs with h
      · norm_num
      · omega
    · rw [hci]; split_ifs with h
      · norm_num [second, minute]
      · linarith
    · rw [hmi]; split_ifs with h
      · norm_num [second, minute]
      · linarith
  refine ⟨hpos, hrps, hb, hci, hmi, ?_, rfl, rfl, ?_⟩
  · rintro ⟨h1, h2, h3, h4⟩
    unfold Config.Validate DefaultConfig
    dsimp only
    split_ifs
    simp_all
  · intro ip now
    apply check_fresh_true
    · rfl
    · show 1 ≤ (cfg.Validate).Burst
      omega

/-- Witness for C4 at the all-invalid configuration 0/0/0/0. -/
theorem new_never_fails_witness :
    zeroConfig.Validate = DefaultConfig ∧
    ((New (some zeroConfig)).check "a" 0).1 = true :=
  ⟨(new_never_fails zeroConfig).2.2.2.2.2.1
      ⟨by with_unfolding_all decide, by with_unfolding_all decide,
       by with_unfolding_all decide, by with_unfolding_all decide⟩,
   (new_never_fails zeroConfig).2.2.2.2.2.2.2.2 "a" 0⟩

/-- C5 counterexample: the sweep of `rate-limit.go` keeps an entry whose
idle age exactly equals the threshold (age 180s, MaxIdleTime 180s),
although the claim requires every entry with age ≥ threshold removed. -/
theorem legacy_sweep_keeps_boundary_entry :
    ¬ (Legacy.cleanupVisitorsPass DefaultConfig.MaxIdleTime 180 vsIdle "a" = none) := by
  with_unfolding_all decide

/-- C5 amended: the part_000 sweep removes exactly the entries with idle
age ≥ MaxIdleTime, while the rate-limit.go sweep removes exactly those
with age strictly greater (an entry whose age equals the threshold is
kept); in both files the sweep is the only deleting operation — an
admission check never removes any entry. -/
theorem sweep_removal_characterization :
    (∀ (maxIdle : ℚ) (now : Time) (vs : Visitors) (k : String),
       (cleanupVisitorsPass maxIdle now vs k = none ↔
         vs k = none ∨ ∃ v, vs k = some v ∧ now - v.lastSeen ≥ maxIdle) ∧
       (∀ v, vs k = some v → now - v.lastSeen < maxIdle →
         cleanupVisitorsPass maxIdle now vs k = some v) ∧
       (Legacy.cleanupVisitorsPass maxIdle now vs k = none ↔
         vs k = none ∨ ∃ v, vs k = some v ∧ now - v.lastSeen > maxIdle) ∧
       (∀ v, vs k = some v → now - v.lastSeen ≤ maxIdle →
         Legacy.cleanupVisitorsPass maxIdle now vs k = some v)) ∧
    (∀ (rl : RateLimiter) (ip : String) (now : Time) (k : String) (v : Visitor),
       rl.visitors k = some v → ∃ w, ((rl.check ip now).2).visitors k = some w) ∧
    (∀ (cfg : Config) (vs : Visitors) (ip : String) (now : Time) (k : String) (v : Visitor),
       vs k = some v → ∃ w, (Legacy.getVisitor cfg vs ip now).2 k = some w) := by
  refine ⟨?_, check_preserves_some, ?_⟩
  · intro maxIdle now vs k
    refine ⟨?_, ?_, ?_, ?_⟩
    · unfold cleanupVisitorsPass
      cases hv : vs k with
      | none => simp
      | some v =>
        dsimp only
        split_ifs with hge
        · simp [hge]
        · simp [hge]
    · intro v hv hlt
      unfold cleanupVisitorsPass
      rw [hv]
      dsimp only
      rw [if_neg (not_le.mpr hlt)]
    · unfold Legacy.cleanupVisitorsPass
      cases hv : vs k with
      | none => simp
      | some v =>
        dsimp only
        split_ifs with hgt
        · simp [hgt]
        · simp [hgt]
    · intro v hv hle
      unfold Legacy.cleanupVisitorsPass
      rw [hv]
      dsimp only
      rw [if_neg (not_lt.mpr hle)]
  · intro cfg vs ip now k v hv
    unfold Legacy.getVisitor
    cases hip : vs ip <;> dsimp only <;> by_cases hk : k = ip
    · subst hk; rw [if_pos rfl]; exact ⟨_, rfl⟩
    · rw [if_neg hk]; exact ⟨v, hv⟩
    · subst hk; rw [if_pos rfl]; exact ⟨_, rfl⟩
    · rw [if_neg hk]; exact ⟨v, hv⟩

/-- Witness for C5: an entry 10 seconds old survives a sweep with a 180s
threshold, and a check on key "b" does not delete key "a". -/
theorem sweep_removal_characterization_witness :
    cleanupVisitorsPass 180 10 vsIdle "a" = some vIdle ∧
    ∃ w, (((RateLimiter.mk DefaultConfig vsIdle).check "b" 0).2).visitors "a" = some w :=
  ⟨(sweep_removal_characterization.1 180 10 vsIdle "a").2.1 vIdle rfl
     (by with_unfolding_all decide),
   sweep_removal_characterization.2.1 (RateLimiter.mk DefaultConfig vsIdle) "b" 0 "a"
     vIdle rfl⟩

/-- C6: an entry idle for at least MaxIdleTime is removed by the sweep,
and the next check for that key builds a brand-new bucket with full
capacity, so that check admits even though the old bucket may have been
exhausted. -/
theorem idle_eviction_then_fresh_bucket :
    ∀ (rl : RateLimiter) (ip : String) (v : Visitor) (now t : Time),
      rl.visitors ip = some v →
      now - v.lastSeen ≥ rl.config.MaxIdleTime →
      1 ≤ rl.config.Burst →
      (rl.cleanupOnce now).visitors ip = none ∧
      (((rl.cleanupOnce now).getVisitor ip t).1).tokens = ((rl.config.Burst : ℤ) : ℚ) ∧
      ((rl.cleanupOnce now).check ip t).1 = true := by
  intro rl ip v now t hv hidle hb
  have hnone : (rl.cleanupOnce now).visitors ip = none := by
    unfold RateLimiter.cleanupOnce cleanupVisitorsPass
    dsimp only
    rw [hv]
    dsimp only
    rw [if_pos hidle]
  refine ⟨hnone, ?_, ?_⟩
  · rw [getVisitor_fresh _ _ _ hnone]
    rfl
  · exact check_fresh_true _ ip t hnone hb

/-- Witness for C6: with the default config, the exhausted visitor under
"a", idle for exactly the threshold, is evicted at time 180 and the
following check at time 200 admits. -/
theorem idle_eviction_then_fresh_bucket_witness :
    ((RateLimiter.mk DefaultConfig vsIdle).cleanupOnce 180).visitors "a" = none ∧
    (((RateLimiter.mk DefaultConfig vsIdle).cleanupOnce 180).check "a" 200).1 = true :=
  ⟨(idle_eviction_then_fresh_bucket (RateLimiter.mk DefaultConfig vsIdle) "a" vIdle 180 200
      rfl (by with_unfolding_all decide) (by with_unfolding_all decide)).1,
   (idle_eviction_then_fresh_bucket (RateLimiter.mk DefaultConfig vsIdle) "a" vIdle 180 200
      rfl (by with_unfolding_all decide) (by with_unfolding_all decide)).2.2⟩

/-- C7: an admission check for key A touches only A's registry entry —
every other key's entry is unchanged (in both implementations) and the
config is unchanged — so after exhausting A, a fresh key B still
admits on its first check. -/
theorem per_key_isolation :
    (∀ (rl : RateLimiter) (ip : String) (now : Time) (k : String), k ≠ ip →
       ((rl.check ip now).2).visitors k = rl.visitors k ∧
       ((rl.getVisitor ip now).2).visitors k = rl.visitors k) ∧
    (∀ (cfg : Config) (vs : Visitors) (ip : String) (now : Time) (k : String), k ≠ ip →
       (Legacy.getVisitor cfg vs ip now).2 k = vs k) ∧
    (∀ (rl : RateLimiter) (ip : String) (now : Time),
       ((rl.check ip now).2).config = rl.config) ∧
    (∀ (rl : RateLimiter) (ipA ipB : String) (nowA nowB : Time), ipB ≠ ipA →
       rl.visitors ipB = none → 1 ≤ rl.config.Burst →
       ((((rl.check ipA nowA).2)).check ipB nowB).1 = true) := by
  refine ⟨?_, ?_, check_config, ?_⟩
  · intro rl ip now k hk
    exact ⟨check_frame rl ip now k hk, getVisitor_frame rl ip now k hk⟩
  · intro cfg vs ip now k hk
    unfold Legacy.getVisitor
    cases hip : vs ip <;> dsimp only <;> rw [if_neg hk]
  · intro rl ipA ipB nowA nowB hne hB hb
    apply check_fresh_true
    · rw [check_frame rl ipA nowA ipB hne]; exact hB
    · rw [check_config]; exact hb

/-- Witness for C7: exhaust nothing — after a first check on "a", key
"b" is still absent and its first check admits. -/
theorem per_key_isolation_witness :
    (((RateLimiter.mk DefaultConfig (fun _ => none)).check "a" 0).2).visitors "b" = none ∧
    ((((RateLimiter.mk DefaultConfig (fun _ => none)).check "a" 0).2).check "b" 0).1 = true :=
  ⟨by rw [(per_key_isolation.1 (RateLimiter.mk DefaultConfig (fun _ => none)) "a" 0 "b"
      (by with_unfolding_all decide)).1],
   per_key_isolation.2.2.2 (RateLimiter.mk DefaultConfig (fun _ => none)) "a" "b" 0 0
     (by with_unfolding_all decide) rfl (by with_unfolding_all decide)⟩

/-- C8 counterexample: no Shutdown operation exists — it is not among
the operations declared by either source file. -/
theorem shutdown_operation_absent :
    ¬ ("Shutdown" ∈ exposedOperations) := by
  with_unfolding_all decide

/-- C8 amended: the registry exposes no Shutdown operation; the sweep
loop has no stop mechanism — after every tick it unconditionally
performs another pass — and admission checks remain valid regardless
(a fresh key still admits under a positive burst). -/
theorem no_shutdown_sweep_never_stops :
    ("Shutdown" ∉ exposedOperations ∧ "RateLimiter.Shutdown" ∉ exposedOperations) ∧
    (∀ (maxIdle : ℚ) (ticks : Nat → Time) (n : Nat) (vs : Visitors),
       cleanupVisitorsRun maxIdle ticks (n + 1) vs =
         cleanupVisitorsPass maxIdle (ticks (n + 1)) (cleanupVisitorsRun maxIdle ticks n vs)) ∧
    (∀ (rl : RateLimiter) (ip : String) (now : Time),
       rl.visitors ip = none → 1 ≤ rl.config.Burst → (rl.check ip now).1 = true) := by
  refine ⟨⟨by with_unfolding_all decide, by with_unfolding_all decide⟩,
          fun _ _ _ _ => rfl, ?_⟩
  intro rl ip now h hb
  exact check_fresh_true rl ip now h hb

/-- Witness for C8's amended statement: a check on the default limiter
still admits. -/
theorem no_shutdown_sweep_never_stops_witness :
    ((New none).check "a" 0).1 = true :=
  no_shutdown_sweep_never_stops.2.2 (New none) "a" 0 rfl (by with_unfolding_all decide)

/-- C9 counterexample: the legacy middleware of rate-limit.go keys by
the raw RemoteAddr even when X-Forwarded-For is non-empty, so for that
cited extraction site the key is not the whitespace-trimmed first
comma-separated forwarded entry. -/
theorem legacy_key_ignores_headers :
    Legacy.clientKey (Request.mk "1.2.3.4, proxy" "" "10.0.0.1:8080") = "10.0.0.1:8080" ∧
    ¬ (Legacy.clientKey (Request.mk "1.2.3.4, proxy" "" "10.0.0.1:8080") =
        (("1.2.3.4, proxy".splitOn ",").headD "").trim) := by
  with_unfolding_all decide

/-- C9 amended: part_000's getClientIP follows the precedence — a
non-empty X-Forwarded-For header wins with the whitespace-trimmed first
comma-separated entry; otherwise a non-empty X-Real-IP is used
verbatim; otherwise the host part of RemoteAddr, or RemoteAddr itself
when it cannot be split into host and port — while the legacy
RateLimitMiddleware of rate-limit.go keys by the raw RemoteAddr
unconditionally, ignoring both headers. -/
theorem client_ip_precedence :
    (∀ (split : String → Option (String × String)) (r : Request),
      (r.xForwardedFor ≠ "" →
        getClientIP split r = ((r.xForwardedFor.splitOn ",").headD "").trim) ∧
      (r.xForwardedFor = "" → r.xRealIP ≠ "" → getClientIP split r = r.xRealIP) ∧
      (r.xForwardedFor = "" → r.xRealIP = "" →
        (∀ host port, split r.remoteAddr = some (host, port) →
          getClientIP split r = host) ∧
        (split r.remoteAddr = none → getClientIP split r = r.remoteAddr))) ∧
    (∀ r : Request, Legacy.clientKey r = r.remoteAddr) := by
  refine ⟨?_, fun r => rfl⟩
  intro split r
  refine ⟨?_, ?_, ?_⟩
  · intro h1
    unfold getClientIP
    rw [if_pos h1]
  · intro h1 h2
    unfold getClientIP
    rw [if_neg (by simp [h1]), if_pos h2]
  · intro h1 h2
    constructor
    · intro host port hs
      unfold getClientIP
      rw [if_neg (by simp [h1]), if_neg (by simp [h2]), hs]
    · intro hs
      unfold getClientIP
      rw [if_neg (by simp [h1]), if_neg (by simp [h2]), hs]

/-- Witness for C9 on the three concrete precedence cases. -/
theorem client_ip_precedence_witness :
    getClientIP (fun _ => none) (Request.mk " 1.2.3.4 , proxy" "" "addr") =
      ((" 1.2.3.4 , proxy".splitOn ",").headD "").trim ∧
    getClientIP (fun _ => none) (Request.mk "" "5.6.7.8" "addr") = "5.6.7.8" ∧
    getClientIP (fun _ => none) (Request.mk "" "" "rawaddr") = "rawaddr" :=
  ⟨(client_ip_precedence.1 (fun _ => none) (Request.mk " 1.2.3.4 , proxy" "" "addr")).1
     (by with_unfolding_all decide),
   (client_ip_precedence.1 (fun _ => none) (Request.mk "" "5.6.7.8" "addr")).2.1 rfl
     (by with_unfolding_all decide),
   ((client_ip_precedence.1 (fun _ => none) (Request.mk "" "" "rawaddr")).2.2 rfl rfl).2 rfl⟩

theorem heapRead_heapWrite_same (h : Heap) (p : Nat) (c : Config) (hp : p < h.length) :
    heapRead (heapWrite h p c) p = c := by
  unfold heapRead heapWrite
  rw [List.getD_eq_getElem?_getD, List.getElem?_set_eq_of_lt c hp]
  rfl

/-- C10: `New` (and `Initialize`) retain and mutate the caller's Config
cell in place: the limiter keeps the caller's pointer, the caller's cell
afterwards holds the validated value — invalid fields overwritten with
their defaults, valid fields untouched — and a later external write
through the caller's pointer is seen by the limiter. -/
theorem new_mutates_caller_config :
    ∀ (h : Heap) (p : Nat) (cfg : Config), p < h.length → heapRead h p = cfg →
      ((NewH h (some p)).2).configPtr = p ∧
      heapRead (NewH h (some p)).1 p = cfg.Validate ∧
      heapRead (NewH h (some p)).1 (((NewH h (some p)).2).configPtr) = cfg.Validate ∧
      (∀ w : Config,
        heapRead (heapWrite (NewH h (some p)).1 p w) (((NewH h (some p)).2).configPtr) = w) ∧
      ((cfg.Validate).RequestsPerSecond =
        if cfg.RequestsPerSecond ≤ 0 then 1 else cfg.RequestsPerSecond) ∧
      ((cfg.Validate).Burst = if cfg.Burst ≤ 0 then 5 else cfg.Burst) ∧
      ((cfg.Validate).CleanupInterval =
        if cfg.CleanupInterval < second then minute else cfg.CleanupInterval) ∧
      ((cfg.Validate).MaxIdleTime =
        if cfg.MaxIdleTime < second then 3 * minute else cfg.MaxIdleTime) ∧
      InitializeH h (some p) = NewH h (some p) := by
  intro h p cfg hp hr
  have hread : heapRead (NewH h (some p)).1 p = cfg.Validate := by
    show heapRead (heapWrite h p ((heapRead h p).Validate)) p = cfg.Validate
    rw [heapRead_heapWrite_same h p _ hp, hr]
  refine ⟨rfl, hread, hread, ?_, Validate_rps cfg, Validate_burst cfg,
          Validate_cleanup cfg, Validate_maxidle cfg, rfl⟩
  intro w
  show heapRead (heapWrite (heapWrite h p ((heapRead h p).Validate)) p w) p = w
  exact heapRead_heapWrite_same _ p w (by simpa [heapWrite] using hp)

/-- Witness for C10 on a one-cell heap holding the all-invalid config. -/
theorem new_mutates_caller_config_witness :
    heapRead (NewH [zeroConfig] (some 0)).1 0 = zeroConfig.Validate ∧
    heapRead (heapWrite (NewH [zeroConfig] (some 0)).1 0 DefaultConfig)
      (((NewH [zeroConfig] (some 0)).2).configPtr) = DefaultConfig :=
  ⟨(new_mutates_caller_config [zeroConfig] 0 zeroConfig (by decide) rfl).2.1,
   (new_mutates_caller_config [zeroConfig] 0 zeroConfig (by decide) rfl).2.2.2.1
     DefaultConfig⟩

end Ratelimiter
